import Mathlib

/-!
Shallow embedding of the round scheduler / scoring core of the MathBot2001
chat bot (src/MathBot2001.cpp) together with proofs of the specified
properties.  Times are modelled as rationals, machine integers as
unbounded `Int` (the program's point counters are small), the
`std::map< std::string, Contestant >` as an association list accessed
only through lookup, and the `std::set< std::string >` of participants
as a strictly sorted list with an ordered insert mirroring
`std::set::insert` (which reports whether the element was new).
Randomness (the Mersenne twister draws) is passed in explicitly: the
question generator receives the stream of drawn triples, and the
cooldown draw is an explicit parameter.
-/

namespace MathBot2001

/-- One user interacting with the bot (struct Contestant in MathBot2001.cpp):
nickname, cumulative points, and this round's pending delta. -/
structure Contestant where
  nickname : String
  points : Int
  pointDelta : Int
deriving DecidableEq, Repr

/-- The value a `std::map` creates for a missing key
(`std::string` empty, ints zero-initialized). -/
def defaultContestant : Contestant :=
  { nickname := "", points := 0, pointDelta := 0 }

/-- Lookup in the contestants map; a missing key yields the
default-constructed Contestant, as `std::map::operator[]` produces. -/
def mapGetOrDefault : List (String × Contestant) → String → Contestant
  | [], _ => defaultContestant
  | (k, v) :: rest, key => if key = k then v else mapGetOrDefault rest key

/-- Store a value under a key in the contestants map (the in-place update
performed through the reference returned by `std::map::operator[]`). -/
def mapSet : List (String × Contestant) → String → Contestant → List (String × Contestant)
  | [], k, v => [(k, v)]
  | (k', v') :: rest, k, v =>
      if k = k' then (k, v) :: rest else (k', v') :: mapSet rest k v

/-- The cumulative points recorded for a nickname (0 if never seen). -/
def pointsOf (m : List (String × Contestant)) (n : String) : Int :=
  (mapGetOrDefault m n).points

/-- The pending per-round delta recorded for a nickname (0 if never seen). -/
def deltaOf (m : List (String × Contestant)) (n : String) : Int :=
  (mapGetOrDefault m n).pointDelta

/-- Ordered insert into the participants set, mirroring
`std::set< std::string >::insert`: keeps the list strictly sorted and
reports whether the element was newly inserted. -/
def setInsert : List String → String → List String × Bool
  | [], x => ([x], true)
  | y :: ys, x =>
      if x < y then (x :: y :: ys, true)
      else if x = y then (y :: ys, false)
      else
        let r := setInsert ys x
        (y :: r.1, r.2)

/-- Modelled from the spec: `StringExtensions::ToInteger` (an external
library, not part of this repository) parses the text as a base-10
integer — an optional leading minus sign followed by one or more decimal
digits; any other text fails to parse.  Overflow is not modelled
(mathematical integers). -/
def toInteger (s : String) : Option Int :=
  let digitsToNat : List Char → Nat :=
    fun ds => ds.foldl (fun acc d => acc * 10 + (d.toNat - 48)) 0
  match s.data with
  | [] => none
  | '-' :: rest =>
      if rest ≠ [] ∧ rest.all Char.isDigit then
        some (-(digitsToNat rest : Int))
      else none
  | c :: rest =>
      if (c :: rest).all Char.isDigit then
        some ((digitsToNat (c :: rest) : Int))
      else none

/-- The mutable round/score state of MathBot2001::Impl that the scheduler
and the answer handler share (MathBot2001.cpp).  Time values are
rationals standing for the seconds counts of the TimeKeeper. -/
structure BotState where
  roundComplete : Bool
  roundScored : Bool
  nextQuestionTime : Rat
  currentScoringTime : Rat
  minQuestionCooldown : Rat
  maxQuestionCooldown : Rat
  roundTime : Rat
  answer : String
  contestants : List (String × Contestant)
  participants : List String
  winnerThisRound : String
deriving DecidableEq, Repr

/-- Method `Impl::UpdateRoundTimes`: the scoring deadline becomes the (still
un-advanced) next-question time plus the round time, then the
next-question time advances by the drawn cooldown. -/
def updateRoundTimes (st : BotState) (cooldown : Rat) : BotState :=
  { st with
      currentScoringTime := st.nextQuestionTime + st.roundTime,
      nextQuestionTime := st.nextQuestionTime + cooldown }

/-- The question/answer draw loop inside `Impl::StartNewRound`: for each
drawn triple (a, b, c) compose the question and the decimal answer;
repeat while the answer equals the previous round's answer.  The list of
draws stands for the random stream; `none` means the supplied stream ran
out (the real loop would keep drawing). -/
def generateQA (lastAnswer : String) : List (Int × Int × Int) → Option (String × String)
  | [] => none
  | (a, b, c) :: rest =>
      let question :=
        "What is " ++ toString a ++ " * " ++ toString b ++ " + " ++ toString c ++ "?"
      let ans := toString (a * b + c)
      if ans = lastAnswer then generateQA lastAnswer rest
      else some (question, ans)

/-- Method `Impl::StartNewRound`: clear the participants and the winner, draw a
fresh question whose answer differs from the previous one, reset the
round flags, and update the two deadlines.  Returns the new state and
the question to post. -/
def startNewRound (st : BotState) (draws : List (Int × Int × Int)) (cooldown : Rat) :
    Option (BotState × String) :=
  let lastAnswer := st.answer
  let st0 := { st with participants := [], winnerThisRound := "" }
  match generateQA lastAnswer draws with
  | none => none
  | some (q, ans) =>
      let st1 := { st0 with answer := ans, roundScored := false, roundComplete := false }
      some (updateRoundTimes st1 cooldown, q)

/-- Method `Impl::IfMessageIsAnswerThenHandleIt`: ignore text that does not
parse as an integer; ignore everything once the round is complete;
otherwise create/fetch the contestant, record first-time participation
(resetting the delta), and compare the literal text against the round's
answer string: a match crowns the winner, completes the round and awards
a point; a mismatch costs a point. -/
def submitAnswer (st : BotState) (userNickname tell : String) : BotState :=
  match toInteger tell with
  | none => st
  | some _ =>
      if st.roundComplete then st
      else
        let userEntry := mapGetOrDefault st.contestants userNickname
        let ins := setInsert st.participants userNickname
        let userEntry := if ins.2 then { userEntry with pointDelta := 0 } else userEntry
        let userEntry := { userEntry with nickname := userNickname }
        if tell = st.answer then
          { st with
              contestants :=
                mapSet st.contestants userNickname
                  { userEntry with pointDelta := userEntry.pointDelta + 1 },
              participants := ins.1,
              winnerThisRound := userNickname,
              roundComplete := true }
        else
          { st with
              contestants :=
                mapSet st.contestants userNickname
                  { userEntry with pointDelta := userEntry.pointDelta - 1 },
              participants := ins.1 }

/-- The loop body of `Impl::ApplyScoresAndGetLosers`: walk the (sorted)
participants, add each pending delta to the points, and accumulate the
losers report (everyone but the winner) with ", " between entries. -/
def applyScoresLoop (winner : String) :
    List String → List (String × Contestant) → Bool → String →
    List (String × Contestant) × String
  | [], m, _, buf => (m, buf)
  | n :: rest, m, firstLoser, buf =>
      let c := mapGetOrDefault m n
      let c' := { c with points := c.points + c.pointDelta }
      let m' := mapSet m n c'
      if n ≠ winner then
        let buf' :=
          (if firstLoser then buf else buf ++ ", ") ++
            n ++ " (" ++ toString c'.pointDelta ++ " -> " ++ toString c'.points ++ ")"
        applyScoresLoop winner rest m' false buf'
      else
        applyScoresLoop winner rest m' firstLoser buf

/-- Method `Impl::ApplyScoresAndGetLosers`: apply every participant's delta to
their points and return the losers report string. -/
def applyScoresAndGetLosers (st : BotState) : BotState × String :=
  let r := applyScoresLoop st.winnerThisRound st.participants st.contestants true ""
  ({ st with contestants := r.1 }, r.2)

/-- The results message composed in `Impl::Worker` after scoring: the
winner's total is read back from the (already updated) contestants map. -/
def composeResults (st : BotState) (losersList : String) : String :=
  if st.winnerThisRound = "" then
    "No winners this round" ++
      (if losersList ≠ "" then ", only losers BibleThump " ++ losersList else "") ++ "."
  else
    let pts := (mapGetOrDefault st.contestants st.winnerThisRound).points
    "Congratulations, " ++ st.winnerThisRound ++ "! (now at " ++ toString pts ++
      " point" ++ (if pts = 1 then "" else "s") ++ ")" ++
      (if losersList ≠ "" then " FeelsBadMan " ++ losersList else "") ++ "."

/-- The scoring branch of `Impl::Worker` (lines 327-355): mark the round
complete and scored, apply the scores, and compose the results message
to send. -/
def scoreRound (st : BotState) : BotState × String :=
  let st1 := { st with roundComplete := true, roundScored := true }
  let r := applyScoresAndGetLosers st1
  (r.1, composeResults r.1 r.2)

/-- One iteration of the `Impl::Worker` polling loop after waking at time
`now`: open a new round if the next-question time has arrived, otherwise
score the current round if its scoring time has arrived and it has not
been scored yet, otherwise do nothing.  Returns the new state and the
chat messages sent; `none` only when the modelled random stream for a
new round runs out. -/
def workerTick (st : BotState) (now : Rat) (draws : List (Int × Int × Int))
    (cooldown : Rat) : Option (BotState × List String) :=
  if st.nextQuestionTime ≤ now then
    match startNewRound st draws cooldown with
    | none => none
    | some (st', q) => some (st', [q])
  else if st.currentScoringTime ≤ now ∧ st.roundScored = false then
    let r := scoreRound st
    some (r.1, [r.2])
  else
    some (st, [])

/-- Fold a sequence of inbound chat answers (nickname, text) through the
answer handler, in arrival order. -/
def foldSubmits (subs : List (String × String)) (st : BotState) : BotState :=
  subs.foldl (fun s p => submitAnswer s p.1 p.2) st

/-- Spec-side rendering of one loser entry of the results report:
`nickname (delta -> newTotal)` where newTotal is the nickname's points
after this round's delta is applied. -/
def renderEntry (m : List (String × Contestant)) (n : String) : String :=
  n ++ " (" ++ toString (deltaOf m n) ++ " -> " ++ toString (pointsOf m n + deltaOf m n) ++ ")"

/-- Spec-side comma-separated join of the loser entries. -/
def joinLosers : List String → String
  | [] => ""
  | e :: rest => rest.foldl (fun acc r => acc ++ ", " ++ r) e

/-- Spec-side loser list: every participant except the winner, in the
participants' (sorted) order, comma separated, each rendered as
`nickname (delta -> newTotal)`. -/
def specLoserList (st : BotState) : String :=
  joinLosers
    (List.map (renderEntry st.contestants)
      (st.participants.filter (fun n => n ≠ st.winnerThisRound)))

/-- Helper mirroring the map updates of the scoring loop: fold
`points += pointDelta` over the participants in order. -/
def scoreMap : List String → List (String × Contestant) → List (String × Contestant)
  | [], m => m
  | n :: rest, m =>
      let c := mapGetOrDefault m n
      scoreMap rest (mapSet m n { c with points := c.points + c.pointDelta })

/-- Helper mirroring the buffer discipline of the scoring loop: append
the entries, separating with ", " except before the first one. -/
def losersAcc : Bool → String → List String → String
  | _, buf, [] => buf
  | b, buf, e :: rest => losersAcc false ((if b then buf else buf ++ ", ") ++ e) rest

/-- The shutdown-relevant state of `Impl` for the logout path:
the loggedOut flag and whether the worker thread is joinable. -/
structure ShutdownState where
  loggedOut : Bool
  workerRunning : Bool
  stopWorker : Bool
deriving DecidableEq, Repr

/-- Method `Impl::StopWorker`: if the worker thread is joinable, set the stop
flag, wake it, and join it (afterwards it is no longer running). -/
def stopWorkerOp (st : ShutdownState) : ShutdownState :=
  if st.workerRunning then { st with stopWorker := true, workerRunning := false } else st

/-- Method `Impl::LogOut` (the Twitch logout callback, MathBot2001.cpp lines
412-421): if already logged out, do nothing; otherwise stop the worker,
emit the "Logged out." announcement, set the flag and wake the main
thread once.  Returns the new state, the announcements emitted, and the
number of main-thread wakes (`mainThreadEvent.notify_one` calls). -/
def logOut (st : ShutdownState) : ShutdownState × List String × Nat :=
  if st.loggedOut then (st, [], 0)
  else
    let st1 := stopWorkerOp st
    ({ st1 with loggedOut := true }, ["Logged out."], 1)

/-! ### Basic lemmas about the map and set operations -/

theorem mapGetOrDefault_mapSet_self (m : List (String × Contestant)) (k : String)
    (v : Contestant) : mapGetOrDefault (mapSet m k v) k = v := by
  induction m with
  | nil => simp [mapSet, mapGetOrDefault]
  | cons p rest ih =>
      obtain ⟨k', v'⟩ := p
      by_cases h : k = k'
      · simp [mapSet, h, mapGetOrDefault]
      · simp [mapSet, h, mapGetOrDefault, ih]

theorem mapGetOrDefault_mapSet_ne (m : List (String × Contestant)) (k x : String)
    (v : Contestant) (h : x ≠ k) :
    mapGetOrDefault (mapSet m k v) x = mapGetOrDefault m x := by
  induction m with
  | nil => simp [mapSet, mapGetOrDefault, h]
  | cons p rest ih =>
      obtain ⟨k', v'⟩ := p
      by_cases hk : k = k'
      · subst hk
        simp [mapSet, mapGetOrDefault, h]
      · by_cases hx : x = k'
        · simp [mapSet, hk, mapGetOrDefault, hx]
        · simp [mapSet, hk, mapGetOrDefault, hx, ih]

theorem setInsert_cons (y : String) (ys : List String) (x : String) :
    setInsert (y :: ys) x =
      if x < y then (x :: y :: ys, true)
      else if x = y then (y :: ys, false)
      else (y :: (setInsert ys x).1, (setInsert ys x).2) := rfl

theorem setInsert_mem_iff (l : List String) (x a : String) :
    a ∈ (setInsert l x).1 ↔ a = x ∨ a ∈ l := by
  induction l with
  | nil => simp [setInsert]
  | cons y ys ih =>
      rw [setInsert_cons]
      by_cases h1 : x < y
      · rw [if_pos h1]
        show a ∈ x :: y :: ys ↔ _
        simp only [List.mem_cons]
      · by_cases h2 : x = y
        · rw [if_neg h1, if_pos h2]
          subst h2
          show a ∈ x :: ys ↔ _
          simp only [List.mem_cons]
          tauto
        · rw [if_neg h1, if_neg h2]
          show a ∈ y :: (setInsert ys x).1 ↔ _
          simp only [List.mem_cons, ih]
          tauto

theorem setInsert_snd_iff (l : List String) (x : String)
    (hs : l.Pairwise (· < ·)) : (setInsert l x).2 = true ↔ x ∉ l := by
  induction l with
  | nil => simp [setInsert]
  | cons y ys ih =>
      rw [List.pairwise_cons] at hs
      rw [setInsert_cons]
      by_cases h1 : x < y
      · rw [if_pos h1]
        have hx : x ∉ y :: ys := by
          intro hmem
          rcases List.mem_cons.mp hmem with h | h
          · exact absurd (h ▸ h1) (lt_irrefl y)
          · exact absurd (hs.1 x h) (lt_asymm h1)
        simpa using hx
      · by_cases h2 : x = y
        · rw [if_neg h1, if_pos h2]
          subst h2
          simp
        · rw [if_neg h1, if_neg h2]
          show (setInsert ys x).2 = true ↔ _
          rw [ih hs.2]
          simp [h2]

theorem setInsert_pairwise (l : List String) (x : String)
    (hs : l.Pairwise (· < ·)) : (setInsert l x).1.Pairwise (· < ·) := by
  induction l with
  | nil => simp [setInsert]
  | cons y ys ih =>
      rw [List.pairwise_cons] at hs
      rw [setInsert_cons]
      by_cases h1 : x < y
      · rw [if_pos h1]
        show List.Pairwise (· < ·) (x :: y :: ys)
        rw [List.pairwise_cons]
        refine ⟨?_, List.pairwise_cons.mpr hs⟩
        intro a ha
        rcases List.mem_cons.mp ha with h | h
        · exact h ▸ h1
        · exact lt_trans h1 (hs.1 a h)
      · by_cases h2 : x = y
        · rw [if_neg h1, if_pos h2]
          exact List.pairwise_cons.mpr hs
        · rw [if_neg h1, if_neg h2]
          show List.Pairwise (· < ·) (y :: (setInsert ys x).1)
          have h3 : y < x := by
            rcases lt_trichotomy x y with h | h | h
            · exact absurd h h1
            · exact absurd h h2
            · exact h
          rw [List.pairwise_cons]
          refine ⟨?_, ih hs.2⟩
          intro a ha
          rcases (setInsert_mem_iff ys x a).mp ha with h | h
          · exact h ▸ h3
          · exact hs.1 a h

/-! ### Lemmas about the answer handler -/

theorem submitAnswer_of_parse_fail (st : BotState) (u t : String)
    (h : toInteger t = none) : submitAnswer st u t = st := by
  simp [submitAnswer, h]

theorem submitAnswer_of_complete (st : BotState) (u t : String)
    (h : st.roundComplete = true) : submitAnswer st u t = st := by
  cases ht : toInteger t <;> simp [submitAnswer, ht, h]

/-- Full field characterization of a correct accepted answer. -/
theorem submitAnswer_correct_fields (st : BotState) (u t : String) (k : Int)
    (ht : toInteger t = some k) (hc : st.roundComplete = false) (ha : t = st.answer) :
    (submitAnswer st u t).roundComplete = true ∧
    (submitAnswer st u t).winnerThisRound = u ∧
    (submitAnswer st u t).participants = (setInsert st.participants u).1 ∧
    (submitAnswer st u t).answer = st.answer ∧
    (submitAnswer st u t).roundScored = st.roundScored ∧
    (submitAnswer st u t).contestants =
      mapSet st.contestants u
        { nickname := u,
          points := (mapGetOrDefault st.contestants u).points,
          pointDelta :=
            (if (setInsert st.participants u).2 = true then 0
             else (mapGetOrDefault st.contestants u).pointDelta) + 1 } ∧
    deltaOf (submitAnswer st u t).contestants u =
      (if (setInsert st.participants u).2 = true then 0
       else (mapGetOrDefault st.contestants u).pointDelta) + 1 := by
  subst ha
  by_cases hi : (setInsert st.participants u).2 = true <;>
    simp [submitAnswer, ht, hc, hi, deltaOf, mapGetOrDefault_mapSet_self]

/-- Full field characterization of a wrong accepted answer. -/
theorem submitAnswer_wrong_fields (st : BotState) (u t : String) (k : Int)
    (ht : toInteger t = some k) (hc : st.roundComplete = false) (ha : t ≠ st.answer) :
    (submitAnswer st u t).roundComplete = false ∧
    (submitAnswer st u t).winnerThisRound = st.winnerThisRound ∧
    (submitAnswer st u t).participants = (setInsert st.participants u).1 ∧
    (submitAnswer st u t).answer = st.answer ∧
    (submitAnswer st u t).roundScored = st.roundScored ∧
    (submitAnswer st u t).contestants =
      mapSet st.contestants u
        { nickname := u,
          points := (mapGetOrDefault st.contestants u).points,
          pointDelta :=
            (if (setInsert st.participants u).2 = true then 0
             else (mapGetOrDefault st.contestants u).pointDelta) - 1 } ∧
    deltaOf (submitAnswer st u t).contestants u =
      (if (setInsert st.participants u).2 = true then 0
       else (mapGetOrDefault st.contestants u).pointDelta) - 1 := by
  by_cases hi : (setInsert st.participants u).2 = true <;>
    simp [submitAnswer, ht, hc, hi, ha, deltaOf, mapGetOrDefault_mapSet_self]

theorem submit_step_cases (st : BotState) (u t : String) (hc : st.roundComplete = false) :
    submitAnswer st u t = st ∨
    ((submitAnswer st u t).roundComplete = false ∧
     (submitAnswer st u t).winnerThisRound = st.winnerThisRound ∧
     (submitAnswer st u t).answer = st.answer) ∨
    ((submitAnswer st u t).roundComplete = true ∧
     (submitAnswer st u t).winnerThisRound = u) := by
  cases ht : toInteger t with
  | none => exact Or.inl (submitAnswer_of_parse_fail st u t ht)
  | some k =>
      by_cases ha : t = st.answer
      · have h := submitAnswer_correct_fields st u t k ht hc ha
        exact Or.inr (Or.inr ⟨h.1, h.2.1⟩)
      · have h := submitAnswer_wrong_fields st u t k ht hc ha
        exact Or.inr (Or.inl ⟨h.1, h.2.1, h.2.2.2.1⟩)

theorem foldSubmits_nil (st : BotState) : foldSubmits [] st = st := rfl

theorem foldSubmits_cons (p : String × String) (rest : List (String × String))
    (st : BotState) :
    foldSubmits (p :: rest) st = foldSubmits rest (submitAnswer st p.1 p.2) := rfl

theorem foldSubmits_of_complete (subs : List (String × String)) (st : BotState)
    (h : st.roundComplete = true) : foldSubmits subs st = st := by
  induction subs with
  | nil => rfl
  | cons p rest ih =>
      rw [foldSubmits_cons, submitAnswer_of_complete st p.1 p.2 h, ih]

/-- In a state with sorted participants, the delta the handler starts
from (0 on first participation, the stored delta afterwards). -/
theorem resetDelta_eq (st : BotState) (u : String)
    (hs : st.participants.Pairwise (· < ·)) :
    (if (setInsert st.participants u).2 = true then 0
     else (mapGetOrDefault st.contestants u).pointDelta) =
      (if u ∈ st.participants then deltaOf st.contestants u else 0) := by
  by_cases hm : u ∈ st.participants
  · have h2 : ¬ (setInsert st.participants u).2 = true :=
      fun h => (setInsert_snd_iff st.participants u hs).mp h hm
    rw [if_neg h2, if_pos hm]
    rfl
  · have h2 : (setInsert st.participants u).2 = true :=
      (setInsert_snd_iff st.participants u hs).mpr hm
    rw [if_pos h2, if_neg hm]

/-! ### Concrete states used by the witnesses -/

/-- An open round whose answer is "47", before any submissions. -/
def exOpen : BotState :=
  { roundComplete := false, roundScored := false,
    nextQuestionTime := 100, currentScoringTime := 60,
    minQuestionCooldown := 45, maxQuestionCooldown := 180, roundTime := 15,
    answer := "47", contestants := [], participants := [], winnerThisRound := "" }

/-- The same round after it has been decided. -/
def exComplete : BotState := { exOpen with roundComplete := true }

/-! ### Claims -/

/-- C1: For every round, the winner is empty or exactly one nickname, and
once a winner is recorded it never changes until the round state is
replaced: once the round is complete every further submission leaves the
state untouched, and any submission sequence started on a fresh round
either never records a winner or records exactly one winner (one of the
submitters), completing the round so that all later submissions are
no-ops. -/
theorem c1_winner_at_most_one (st : BotState) (subs : List (String × String)) :
    (st.roundComplete = true → foldSubmits subs st = st) ∧
    (st.roundComplete = false → st.winnerThisRound = "" →
      ((foldSubmits subs st).roundComplete = false ∧
       (foldSubmits subs st).winnerThisRound = "") ∨
      (∃ u, u ∈ subs.map Prod.fst ∧
        (foldSubmits subs st).winnerThisRound = u ∧
        (foldSubmits subs st).roundComplete = true ∧
        ∀ more, foldSubmits more (foldSubmits subs st) = foldSubmits subs st)) := by
  constructor
  · intro h
    exact foldSubmits_of_complete subs st h
  · induction subs generalizing st with
    | nil =>
        intro hc hw
        exact Or.inl ⟨hc, hw⟩
    | cons p rest ih =>
        intro hc hw
        obtain ⟨u, t⟩ := p
        rw [foldSubmits_cons]
        rcases submit_step_cases st u t hc with h | h | h
        · rw [h]
          rcases ih st hc hw with hl | ⟨u', hm, hw', hcomp, hfreeze⟩
          · exact Or.inl hl
          · refine Or.inr ⟨u', ?_, hw', hcomp, hfreeze⟩
            rw [List.map_cons]
            exact List.mem_cons_of_mem _ hm
        · rcases ih (submitAnswer st u t) h.1 (h.2.1.trans hw) with hl | ⟨u', hm, hw', hcomp, hfreeze⟩
          · exact Or.inl hl
          · refine Or.inr ⟨u', ?_, hw', hcomp, hfreeze⟩
            rw [List.map_cons]
            exact List.mem_cons_of_mem _ hm
        · have hfreeze : ∀ more, foldSubmits more (submitAnswer st u t) = submitAnswer st u t :=
            fun more => foldSubmits_of_complete more _ h.1
          rw [hfreeze rest]
          refine Or.inr ⟨u, ?_, h.2, h.1, hfreeze⟩
          rw [List.map_cons]
          exact List.mem_cons_self _ _

/-- Witness for C1 at concrete inputs. -/
theorem c1_winner_at_most_one_witness :
    (foldSubmits [("alice", "1")] exComplete = exComplete) ∧
    (((foldSubmits [("alice", "12")] exOpen).roundComplete = false ∧
      (foldSubmits [("alice", "12")] exOpen).winnerThisRound = "") ∨
     (∃ u, u ∈ [("alice", "12")].map Prod.fst ∧
       (foldSubmits [("alice", "12")] exOpen).winnerThisRound = u ∧
       (foldSubmits [("alice", "12")] exOpen).roundComplete = true ∧
       ∀ more, foldSubmits more (foldSubmits [("alice", "12")] exOpen) =
         foldSubmits [("alice", "12")] exOpen)) :=
  ⟨(c1_winner_at_most_one exComplete [("alice", "1")]).1 rfl,
   (c1_winner_at_most_one exOpen [("alice", "12")]).2 rfl rfl⟩

/-- C2: The answer handler is a complete no-op when the text does not
parse as a base-10 integer, and a complete no-op (no contestant created
or mutated, no participation recorded, no winner change) while the round
is already complete. -/
theorem c2_submit_noop (st : BotState) (u t : String) :
    (toInteger t = none → submitAnswer st u t = st) ∧
    (st.roundComplete = true → submitAnswer st u t = st) :=
  ⟨fun h => submitAnswer_of_parse_fail st u t h,
   fun h => submitAnswer_of_complete st u t h⟩

/-- Witness for C2: the non-numeric text "hello" is ignored, and a
numeric answer arriving after the round completed is ignored. -/
theorem c2_submit_noop_witness :
    toInteger "hello" = none ∧
    submitAnswer exOpen "alice" "hello" = exOpen ∧
    exComplete.roundComplete = true ∧
    submitAnswer exComplete "bob" "47" = exComplete :=
  have h1 : toInteger "hello" = none := by decide
  ⟨h1, (c2_submit_noop exOpen "alice" "hello").1 h1, rfl,
   (c2_submit_noop exComplete "bob" "47").2 rfl⟩

/-- Characterization of a successful round start. -/
theorem startNewRound_some (st : BotState) (draws : List (Int × Int × Int))
    (cooldown : Rat) (st2 : BotState) (q : String)
    (h : startNewRound st draws cooldown = some (st2, q)) :
    ∃ ans, generateQA st.answer draws = some (q, ans) ∧
      st2 = { st with
        participants := [], winnerThisRound := "", answer := ans,
        roundScored := false, roundComplete := false,
        currentScoringTime := st.nextQuestionTime + st.roundTime,
        nextQuestionTime := st.nextQuestionTime + cooldown } := by
  simp only [startNewRound] at h
  cases hg : generateQA st.answer draws with
  | none =>
      rw [hg] at h
      exact absurd h (by simp)
  | some pair =>
      obtain ⟨q', ans⟩ := pair
      rw [hg] at h
      simp only [Option.some.injEq, Prod.mk.injEq] at h
      obtain ⟨h1, h2⟩ := h
      subst h2
      refine ⟨ans, rfl, ?_⟩
      rw [← h1]
      rfl

/-- Characterization of a successful question/answer draw. -/
theorem generateQA_some (last : String) (draws : List (Int × Int × Int))
    (q ans : String) (h : generateQA last draws = some (q, ans)) :
    ans ≠ last ∧
    ∃ a b c, (a, b, c) ∈ draws ∧
      q = "What is " ++ toString a ++ " * " ++ toString b ++ " + " ++ toString c ++ "?" ∧
      ans = toString (a * b + c) := by
  induction draws with
  | nil => exact absurd h (by simp [generateQA])
  | cons d rest ih =>
      obtain ⟨a, b, c⟩ := d
      rw [generateQA] at h
      by_cases he : toString (a * b + c) = last
      · rw [if_pos he] at h
        obtain ⟨hne, a', b', c', hm, hq, ha⟩ := ih h
        exact ⟨hne, a', b', c', List.mem_cons_of_mem _ hm, hq, ha⟩
      · rw [if_neg he] at h
        simp only [Option.some.injEq, Prod.mk.injEq] at h
        obtain ⟨h1, h2⟩ := h
        subst h2
        exact ⟨he, a, b, c, List.mem_cons_self _ _, h1.symm, rfl⟩

/-- C4: An answer attempt accepted into an open round is judged by exact
string equality with the round's answer string (so "007" does not match
"7"): a match records the submitter as winner, completes the round, and
adds one to their delta; a mismatch subtracts one (from 0 on first
participation), leaves the round open, and each further wrong guess by
the same contestant subtracts one more. -/
theorem c4_exact_match_judging (st : BotState) (u t : String) (k : Int)
    (ht : toInteger t = some k) (hc : st.roundComplete = false)
    (hs : st.participants.Pairwise (· < ·)) :
    (t = st.answer →
      (submitAnswer st u t).winnerThisRound = u ∧
      (submitAnswer st u t).roundComplete = true ∧
      deltaOf (submitAnswer st u t).contestants u =
        (if u ∈ st.participants then deltaOf st.contestants u else 0) + 1) ∧
    (t ≠ st.answer →
      (submitAnswer st u t).roundComplete = false ∧
      (submitAnswer st u t).winnerThisRound = st.winnerThisRound ∧
      deltaOf (submitAnswer st u t).contestants u =
        (if u ∈ st.participants then deltaOf st.contestants u else 0) - 1 ∧
      (∀ t2 k2, toInteger t2 = some k2 → t2 ≠ st.answer →
        deltaOf (submitAnswer (submitAnswer st u t) u t2).contestants u =
          deltaOf (submitAnswer st u t).contestants u - 1)) := by
  constructor
  · intro ha
    obtain ⟨h1, h2, h3, h4, h5, h6, h7⟩ := submitAnswer_correct_fields st u t k ht hc ha
    refine ⟨h2, h1, ?_⟩
    rw [h7, resetDelta_eq st u hs]
  · intro ha
    obtain ⟨h1, h2, h3, h4, h5, h6, h7⟩ := submitAnswer_wrong_fields st u t k ht hc ha
    refine ⟨h1, h2, ?_, ?_⟩
    · rw [h7, resetDelta_eq st u hs]
    · intro t2 k2 ht2 ha2
      have hs' : (submitAnswer st u t).participants.Pairwise (· < ·) := by
        rw [h3]
        exact setInsert_pairwise st.participants u hs
      have hmem : u ∈ (submitAnswer st u t).participants := by
        rw [h3]
        exact (setInsert_mem_iff st.participants u u).mpr (Or.inl rfl)
      have ha2' : t2 ≠ (submitAnswer st u t).answer := by
        rw [h4]
        exact ha2
      obtain ⟨g1, g2, g3, g4, g5, g6, g7⟩ :=
        submitAnswer_wrong_fields (submitAnswer st u t) u t2 k2 ht2 h1 ha2'
      rw [g7, resetDelta_eq (submitAnswer st u t) u hs', if_pos hmem]

/-- Witness for C4: with round answer "7", the literal "007" parses but
does not match. -/
theorem c4_exact_match_judging_witness :
    toInteger "007" = some 7 ∧
    ({ exOpen with answer := "7" } : BotState).roundComplete = false ∧
    ("007" ≠ ({ exOpen with answer := "7" } : BotState).answer) ∧
    ((submitAnswer { exOpen with answer := "7" } "alice" "007").roundComplete = false ∧
     (submitAnswer { exOpen with answer := "7" } "alice" "007").winnerThisRound =
       ({ exOpen with answer := "7" } : BotState).winnerThisRound ∧
     deltaOf (submitAnswer { exOpen with answer := "7" } "alice" "007").contestants "alice" =
       (if "alice" ∈ ({ exOpen with answer := "7" } : BotState).participants
        then deltaOf ({ exOpen with answer := "7" } : BotState).contestants "alice" else 0) - 1 ∧
     (∀ t2 k2, toInteger t2 = some k2 → t2 ≠ ({ exOpen with answer := "7" } : BotState).answer →
       deltaOf (submitAnswer (submitAnswer { exOpen with answer := "7" } "alice" "007") "alice" t2).contestants "alice" =
         deltaOf (submitAnswer { exOpen with answer := "7" } "alice" "007").contestants "alice" - 1)) :=
  ⟨by decide, rfl, by decide,
   (c4_exact_match_judging { exOpen with answer := "7" } "alice" "007" 7
     (by decide) rfl List.Pairwise.nil).2 (by decide)⟩

/-- C6: A nickname's delta is reset to zero exactly once per round, at
its first recorded attempt (afterwards deltas accumulate from the stored
value); the participants set only grows under submissions and is left
unchanged by the scoring pass; and starting the next round clears the
participants set and the winner. -/
theorem c6_first_attempt_reset (st : BotState) (u t : String) (k : Int)
    (ht : toInteger t = some k) (hc : st.roundComplete = false)
    (hs : st.participants.Pairwise (· < ·)) :
    (u ∉ st.participants →
      deltaOf (submitAnswer st u t).contestants u = (if t = st.answer then 1 else -1)) ∧
    (u ∈ st.participants →
      deltaOf (submitAnswer st u t).contestants u =
        deltaOf st.contestants u + (if t = st.answer then 1 else -1)) ∧
    (∀ x, x ∈ st.participants → x ∈ (submitAnswer st u t).participants) ∧
    u ∈ (submitAnswer st u t).participants ∧
    (scoreRound st).1.participants = st.participants ∧
    (∀ draws cooldown st2 q, startNewRound st draws cooldown = some (st2, q) →
      st2.participants = [] ∧ st2.winnerThisRound = "") := by
  have hpart : (submitAnswer st u t).participants = (setInsert st.participants u).1 := by
    by_cases ha : t = st.answer
    · exact (submitAnswer_correct_fields st u t k ht hc ha).2.2.1
    · exact (submitAnswer_wrong_fields st u t k ht hc ha).2.2.1
  have hdelta : deltaOf (submitAnswer st u t).contestants u =
      (if u ∈ st.participants then deltaOf st.contestants u else 0) +
        (if t = st.answer then 1 else -1) := by
    by_cases ha : t = st.answer
    · have h7 := (submitAnswer_correct_fields st u t k ht hc ha).2.2.2.2.2.2
      rw [h7, resetDelta_eq st u hs, if_pos ha]
    · have h7 := (submitAnswer_wrong_fields st u t k ht hc ha).2.2.2.2.2.2
      rw [h7, resetDelta_eq st u hs, if_neg ha, sub_eq_add_neg]
  refine ⟨?_, ?_, ?_, ?_, rfl, ?_⟩
  · intro hm
    rw [hdelta, if_neg hm, zero_add]
  · intro hm
    rw [hdelta, if_pos hm]
  · intro x hx
    rw [hpart]
    exact (setInsert_mem_iff st.participants u x).mpr (Or.inr hx)
  · rw [hpart]
    exact (setInsert_mem_iff st.participants u u).mpr (Or.inl rfl)
  · intro draws cooldown st2 q hsr
    obtain ⟨ans, hg, hst2⟩ := startNewRound_some st draws cooldown st2 q hsr
    rw [hst2]
    exact ⟨rfl, rfl⟩

/-- Witness for C6 at concrete inputs. -/
theorem c6_first_attempt_reset_witness :
    toInteger "12" = some 12 ∧ exOpen.roundComplete = false ∧
    ("alice" ∉ exOpen.participants →
      deltaOf (submitAnswer exOpen "alice" "12").contestants "alice" =
        (if "12" = exOpen.answer then 1 else -1)) ∧
    (∀ draws cooldown st2 q, startNewRound exOpen draws cooldown = some (st2, q) →
      st2.participants = [] ∧ st2.winnerThisRound = "") :=
  have h := c6_first_attempt_reset exOpen "alice" "12" 12 (by decide) rfl List.Pairwise.nil
  ⟨by decide, rfl, h.1, h.2.2.2.2.2⟩

/-- C7: Question generation draws bounded triples (a, b, c), produces the
question "What is a * b + c?" with the answer rendered in decimal, and
re-draws until the answer differs from the previous round's answer, so a
successfully started round never repeats the previous answer. -/
theorem c7_generate_fresh_answer (st : BotState) (draws : List (Int × Int × Int))
    (cooldown : Rat) (st2 : BotState) (q : String)
    (hb : ∀ x ∈ draws, 2 ≤ x.1 ∧ x.1 ≤ 10 ∧ 2 ≤ x.2.1 ∧ x.2.1 ≤ 10 ∧ 2 ≤ x.2.2 ∧ x.2.2 ≤ 97)
    (h : startNewRound st draws cooldown = some (st2, q)) :
    st2.answer ≠ st.answer ∧
    ∃ a b c, (a, b, c) ∈ draws ∧
      (2 ≤ a ∧ a ≤ 10 ∧ 2 ≤ b ∧ b ≤ 10 ∧ 2 ≤ c ∧ c ≤ 97) ∧
      q = "What is " ++ toString a ++ " * " ++ toString b ++ " + " ++ toString c ++ "?" ∧
      st2.answer = toString (a * b + c) := by
  obtain ⟨ans, hg, hst2⟩ := startNewRound_some st draws cooldown st2 q h
  have hans : st2.answer = ans := by rw [hst2]
  obtain ⟨hne, a, b, c, hm, hq, ha⟩ := generateQA_some st.answer draws q ans hg
  refine ⟨by rw [hans]; exact ha ▸ hne, a, b, c, hm, hb (a, b, c) hm, hq, by rw [hans, ha]⟩

/-- The state produced by the concrete round start used in the C7
witness: the first draw 2 * 3 + 41 collides with the previous answer
"47" and is rejected, the second draw 3 * 3 + 5 is used. -/
def exAfterStart : BotState :=
  { exOpen with answer := "14", participants := [], winnerThisRound := "",
                roundScored := false, roundComplete := false,
                currentScoringTime := exOpen.nextQuestionTime + exOpen.roundTime,
                nextQuestionTime := exOpen.nextQuestionTime + 50 }

/-- Witness for C7 at a concrete draw stream. -/
theorem c7_generate_fresh_answer_witness :
    startNewRound exOpen [(2, 3, 41), (3, 3, 5)] 50 =
      some (exAfterStart, "What is 3 * 3 + 5?") ∧
    exAfterStart.answer ≠ exOpen.answer :=
  have hsr : startNewRound exOpen [(2, 3, 41), (3, 3, 5)] 50 =
      some (exAfterStart, "What is 3 * 3 + 5?") := by rfl
  ⟨hsr,
   (c7_generate_fresh_answer exOpen [(2, 3, 41), (3, 3, 5)] 50 _ _
     (by decide) hsr).1⟩

/-- C8: When a round opens, the scoring deadline equals the round's
scheduled open time (the pending next-question time) plus the round
time, and the next question time advances by the drawn cooldown from the
previous scheduled time, for any cooldown in the configured range. -/
theorem c8_round_times (st : BotState) (draws : List (Int × Int × Int))
    (cooldown : Rat) (st2 : BotState) (q : String)
    (hcd : st.minQuestionCooldown ≤ cooldown ∧ cooldown ≤ st.maxQuestionCooldown)
    (h : startNewRound st draws cooldown = some (st2, q)) :
    st2.currentScoringTime = st.nextQuestionTime + st.roundTime ∧
    st2.nextQuestionTime = st.nextQuestionTime + cooldown := by
  obtain ⟨ans, hg, hst2⟩ := startNewRound_some st draws cooldown st2 q h
  rw [hst2]
  exact ⟨rfl, rfl⟩

/-- Witness for C8 at a concrete round start. -/
theorem c8_round_times_witness :
    exOpen.minQuestionCooldown ≤ (50 : Rat) ∧ (50 : Rat) ≤ exOpen.maxQuestionCooldown ∧
    ∀ st2 q, startNewRound exOpen [(3, 3, 5)] 50 = some (st2, q) →
      st2.currentScoringTime = exOpen.nextQuestionTime + exOpen.roundTime ∧
      st2.nextQuestionTime = exOpen.nextQuestionTime + 50 :=
  ⟨by decide, by decide,
   fun st2 q h => c8_round_times exOpen [(3, 3, 5)] 50 st2 q ⟨by decide, by decide⟩ h⟩

/-- A Bool that is not true is false. -/
theorem bool_eq_false_of_not_true {b : Bool} (h : ¬ b = true) : b = false := by
  cases b
  · rfl
  · exact absurd rfl h

/-- Updating one contestant without touching the points field preserves
everyone's points. -/
theorem pointsOf_mapSet_entry (m : List (String × Contestant)) (u : String)
    (e : Contestant) (he : e.points = (mapGetOrDefault m u).points) (n : String) :
    pointsOf (mapSet m u e) n = pointsOf m n := by
  by_cases h : n = u
  · subst h
    unfold pointsOf
    rw [mapGetOrDefault_mapSet_self, he]
  · unfold pointsOf
    rw [mapGetOrDefault_mapSet_ne m u n e h]

/-- The answer handler never changes any contestant's cumulative points. -/
theorem pointsOf_submitAnswer (st : BotState) (u t n : String) :
    pointsOf (submitAnswer st u t).contestants n = pointsOf st.contestants n := by
  cases ht : toInteger t with
  | none => rw [submitAnswer_of_parse_fail st u t ht]
  | some k =>
      by_cases hc : st.roundComplete = true
      · rw [submitAnswer_of_complete st u t hc]
      · have hc' : st.roundComplete = false := bool_eq_false_of_not_true hc
        by_cases ha : t = st.answer
        · rw [(submitAnswer_correct_fields st u t k ht hc' ha).2.2.2.2.2.1]
          apply pointsOf_mapSet_entry
          rfl
        · rw [(submitAnswer_wrong_fields st u t k ht hc' ha).2.2.2.2.2.1]
          apply pointsOf_mapSet_entry
          rfl

/-- The answer handler never changes the round-scored flag. -/
theorem submitAnswer_roundScored (st : BotState) (u t : String) :
    (submitAnswer st u t).roundScored = st.roundScored := by
  cases ht : toInteger t with
  | none => rw [submitAnswer_of_parse_fail st u t ht]
  | some k =>
      by_cases hc : st.roundComplete = true
      · rw [submitAnswer_of_complete st u t hc]
      · have hc' : st.roundComplete = false := bool_eq_false_of_not_true hc
        by_cases ha : t = st.answer
        · exact (submitAnswer_correct_fields st u t k ht hc' ha).2.2.2.2.1
        · exact (submitAnswer_wrong_fields st u t k ht hc' ha).2.2.2.2.1

/-- C9: The logout callback is idempotent: starting from a
not-yet-logged-out state, the first call emits exactly one "Logged out."
announcement and one wake of the waiting main thread, and a second call
changes nothing, emits nothing, and wakes nobody. -/
theorem c9_logout_idempotent (st : ShutdownState) (h : st.loggedOut = false) :
    (logOut st).2.1 = ["Logged out."] ∧
    (logOut st).2.2 = 1 ∧
    logOut (logOut st).1 = ((logOut st).1, [], 0) := by
  have h1 : logOut st = ({ stopWorkerOp st with loggedOut := true }, ["Logged out."], 1) := by
    simp [logOut, h]
  rw [h1]
  refine ⟨rfl, rfl, ?_⟩
  simp [logOut]

/-- Witness for C9 from the running, logged-in state. -/
theorem c9_logout_idempotent_witness :
    (logOut ⟨false, true, false⟩).2.1 = ["Logged out."] ∧
    (logOut ⟨false, true, false⟩).2.2 = 1 ∧
    logOut (logOut ⟨false, true, false⟩).1 = ((logOut ⟨false, true, false⟩).1, [], 0) :=
  c9_logout_idempotent ⟨false, true, false⟩ rfl

/-- C10: A correct answer never triggers immediate scoring or an
immediate results announcement: submissions never change the
round-scored flag or anyone's points, a worker tick strictly before both
deadlines does nothing, and a tick that emits anything while the round
is not being opened can only do so at or after the scheduled scoring
time of a not-yet-scored round. -/
theorem c10_scoring_only_at_deadline (st : BotState) (u t : String) (now : Rat)
    (draws : List (Int × Int × Int)) (cooldown : Rat) :
    (submitAnswer st u t).roundScored = st.roundScored ∧
    (∀ n, pointsOf (submitAnswer st u t).contestants n = pointsOf st.contestants n) ∧
    (now < st.nextQuestionTime → now < st.currentScoringTime →
      workerTick st now draws cooldown = some (st, [])) ∧
    (now < st.nextQuestionTime →
      ∀ st2 outs, workerTick st now draws cooldown = some (st2, outs) → outs ≠ [] →
        st.currentScoringTime ≤ now ∧ st.roundScored = false) := by
  refine ⟨submitAnswer_roundScored st u t, fun n => pointsOf_submitAnswer st u t n, ?_, ?_⟩
  · intro h1 h2
    unfold workerTick
    rw [if_neg (not_le.mpr h1)]
    rw [if_neg (fun hand => absurd hand.1 (not_le.mpr h2))]
  · intro hn st2 outs hw hne
    unfold workerTick at hw
    rw [if_neg (not_le.mpr hn)] at hw
    by_cases h2 : st.currentScoringTime ≤ now ∧ st.roundScored = false
    · exact h2
    · rw [if_neg h2] at hw
      simp only [Option.some.injEq, Prod.mk.injEq] at hw
      exact absurd hw.2.symm hne

/-- Witness for C10: a tick at time 59 (before both deadlines of the
example round) does nothing. -/
theorem c10_scoring_only_at_deadline_witness :
    (submitAnswer exOpen "alice" "12").roundScored = exOpen.roundScored ∧
    workerTick exOpen 59 [] 50 = some (exOpen, []) :=
  ⟨(c10_scoring_only_at_deadline exOpen "alice" "12" 59 [] 50).1,
   (c10_scoring_only_at_deadline exOpen "alice" "12" 59 [] 50).2.2.1
     (by decide) (by decide)⟩

/-! ### The scoring pass: loop/fold correspondence -/

theorem scoreMap_cons (n : String) (rest : List String) (m : List (String × Contestant)) :
    scoreMap (n :: rest) m =
      scoreMap rest
        (mapSet m n { mapGetOrDefault m n with
          points := (mapGetOrDefault m n).points + (mapGetOrDefault m n).pointDelta }) := rfl

theorem applyScoresLoop_cons_skip (w : String) (rest : List String)
    (m : List (String × Contestant)) (b : Bool) (buf : String) :
    applyScoresLoop w (w :: rest) m b buf =
      applyScoresLoop w rest
        (mapSet m w { mapGetOrDefault m w with
          points := (mapGetOrDefault m w).points + (mapGetOrDefault m w).pointDelta })
        b buf := by
  simp [applyScoresLoop]

theorem applyScoresLoop_cons_loser (w n : String) (hnw : n ≠ w) (rest : List String)
    (m : List (String × Contestant)) (b : Bool) (buf : String) :
    applyScoresLoop w (n :: rest) m b buf =
      applyScoresLoop w rest
        (mapSet m n { mapGetOrDefault m n with
          points := (mapGetOrDefault m n).points + (mapGetOrDefault m n).pointDelta })
        false
        ((if b then buf else buf ++ ", ") ++ n ++ " (" ++
          toString (mapGetOrDefault m n).pointDelta ++ " -> " ++
          toString ((mapGetOrDefault m n).points + (mapGetOrDefault m n).pointDelta) ++ ")") := by
  simp [applyScoresLoop, hnw]

theorem renderEntry_mapSet_ne (m : List (String × Contestant)) (k : String)
    (v : Contestant) (x : String) (h : x ≠ k) :
    renderEntry (mapSet m k v) x = renderEntry m x := by
  unfold renderEntry deltaOf pointsOf
  rw [mapGetOrDefault_mapSet_ne m k x v h]

theorem map_renderEntry_mapSet (m : List (String × Contestant)) (k : String)
    (v : Contestant) (l : List String) (h : ∀ x ∈ l, x ≠ k) :
    List.map (renderEntry (mapSet m k v)) l = List.map (renderEntry m) l := by
  induction l with
  | nil => rfl
  | cons x xs ih =>
      rw [List.map_cons, List.map_cons,
        renderEntry_mapSet_ne m k v x (h x (List.mem_cons_self x xs)),
        ih (fun y hy => h y (List.mem_cons_of_mem x hy))]

/-- The scoring loop is the fold of the per-participant update, paired
with the report built from the entries as rendered against the map at
loop entry (participant names are pairwise distinct, so later updates do
not disturb earlier reads). -/
theorem applyScoresLoop_eq (w : String) (ns : List String) :
    ∀ (m : List (String × Contestant)) (b : Bool) (buf : String),
      ns.Pairwise (fun a a' => a ≠ a') →
      applyScoresLoop w ns m b buf =
        (scoreMap ns m,
         losersAcc b buf (List.map (renderEntry m) (List.filter (fun n => n ≠ w) ns))) := by
  induction ns with
  | nil =>
      intro m b buf _
      rfl
  | cons n rest ih =>
      intro m b buf hp
      rw [List.pairwise_cons] at hp
      have hmapstable :
          List.map
            (renderEntry (mapSet m n { mapGetOrDefault m n with
              points := (mapGetOrDefault m n).points + (mapGetOrDefault m n).pointDelta }))
            (List.filter (fun x => x ≠ w) rest) =
          List.map (renderEntry m) (List.filter (fun x => x ≠ w) rest) := by
        apply map_renderEntry_mapSet
        intro x hx
        exact Ne.symm (hp.1 x (List.mem_of_mem_filter hx))
      by_cases hnw : n = w
      · subst hnw
        rw [applyScoresLoop_cons_skip, scoreMap_cons]
        rw [ih _ b buf hp.2]
        rw [show List.filter (fun x => x ≠ n) (n :: rest) =
            List.filter (fun x => x ≠ n) rest from by simp]
        rw [hmapstable]
      · rw [applyScoresLoop_cons_loser w n hnw, scoreMap_cons]
        rw [ih _ false _ hp.2]
        rw [show List.filter (fun x => x ≠ w) (n :: rest) =
            n :: List.filter (fun x => x ≠ w) rest from by simp [hnw]]
        rw [List.map_cons]
        rw [show losersAcc b buf
              (renderEntry m n ::
                List.map (renderEntry m) (List.filter (fun x => x ≠ w) rest)) =
            losersAcc false ((if b then buf else buf ++ ", ") ++ renderEntry m n)
              (List.map (renderEntry m) (List.filter (fun x => x ≠ w) rest)) from rfl]
        rw [hmapstable]
        congr 2
        simp [renderEntry, deltaOf, pointsOf, String.append_assoc]

theorem losersAcc_false_eq (es : List String) :
    ∀ buf : String, losersAcc false buf es =
      es.foldl (fun acc r => acc ++ ", " ++ r) buf := by
  induction es with
  | nil => intro buf; rfl
  | cons e rest ih =>
      intro buf
      rw [show losersAcc false buf (e :: rest) =
          losersAcc false (buf ++ ", " ++ e) rest from rfl]
      rw [ih (buf ++ ", " ++ e)]
      rfl

theorem losersAcc_true_eq (es : List String) :
    losersAcc true "" es = joinLosers es := by
  cases es with
  | nil => rfl
  | cons e rest =>
      rw [show losersAcc true "" (e :: rest) = losersAcc false ("" ++ e) rest from rfl]
      rw [show ("" : String) ++ e = e from rfl]
      rw [losersAcc_false_eq rest e]
      rfl

/-- Folding the per-participant update over pairwise-distinct names adds
each name's delta to its points exactly once and leaves deltas and
everyone else's points unchanged. -/
theorem pointsOf_scoreMap (ns : List String) :
    ∀ (m : List (String × Contestant)) (x : String),
      ns.Pairwise (fun a a' => a ≠ a') →
      pointsOf (scoreMap ns m) x =
        pointsOf m x + (if x ∈ ns then deltaOf m x else 0) ∧
      deltaOf (scoreMap ns m) x = deltaOf m x := by
  induction ns with
  | nil =>
      intro m x _
      simp [scoreMap]
  | cons n rest ih =>
      intro m x hp
      rw [List.pairwise_cons] at hp
      rw [scoreMap_cons]
      by_cases hx : x = n
      · subst hx
        have hnot : x ∉ rest := fun hmem => hp.1 x hmem rfl
        obtain ⟨hP, hD⟩ := ih _ x hp.2
        rw [hP, hD]
        constructor
        · rw [if_neg hnot, if_pos (List.mem_cons_self x rest)]
          unfold pointsOf deltaOf
          rw [mapGetOrDefault_mapSet_self]
          simp
        · unfold deltaOf
          rw [mapGetOrDefault_mapSet_self]
      · obtain ⟨hP, hD⟩ := ih _ x hp.2
        rw [hP, hD]
        constructor
        · unfold pointsOf deltaOf
          rw [mapGetOrDefault_mapSet_ne _ _ _ _ hx]
          simp [List.mem_cons, hx]
        · unfold deltaOf
          rw [mapGetOrDefault_mapSet_ne _ _ _ _ hx]

/-- A round with one participant ("bob" at 3 points, delta -1) used by
the C5 witness. -/
def exScoring : BotState :=
  { exOpen with participants := ["bob"],
                contestants := [("bob", { nickname := "bob", points := 3, pointDelta := -1 })] }

/-- C5: Cumulative points change only in the round-close scoring pass,
never inside the answer handler; in that pass every participant of the
closing round (winner included) gets points += pointDelta applied
exactly once, and non-participants are untouched. -/
theorem c5_points_only_at_close (st : BotState) (u t n : String)
    (hp : st.participants.Pairwise (fun a b => a ≠ b)) :
    pointsOf (submitAnswer st u t).contestants n = pointsOf st.contestants n ∧
    (n ∈ st.participants →
      pointsOf (applyScoresAndGetLosers st).1.contestants n =
        pointsOf st.contestants n + deltaOf st.contestants n) ∧
    (n ∉ st.participants →
      pointsOf (applyScoresAndGetLosers st).1.contestants n = pointsOf st.contestants n) := by
  have hmap : (applyScoresAndGetLosers st).1.contestants =
      scoreMap st.participants st.contestants := by
    unfold applyScoresAndGetLosers
    rw [applyScoresLoop_eq st.winnerThisRound st.participants st.contestants true "" hp]
  refine ⟨pointsOf_submitAnswer st u t n, ?_, ?_⟩
  · intro hm
    rw [hmap, (pointsOf_scoreMap st.participants st.contestants n hp).1, if_pos hm]
  · intro hm
    rw [hmap, (pointsOf_scoreMap st.participants st.contestants n hp).1, if_neg hm, add_zero]

/-- Witness for C5: submitting does not change bob's 3 points; the
scoring pass applies bob's -1 delta once. -/
theorem c5_points_only_at_close_witness :
    pointsOf (submitAnswer exScoring "alice" "12").contestants "bob" =
      pointsOf exScoring.contestants "bob" ∧
    pointsOf (applyScoresAndGetLosers exScoring).1.contestants "bob" =
      pointsOf exScoring.contestants "bob" + deltaOf exScoring.contestants "bob" :=
  have h := c5_points_only_at_close exScoring "alice" "12" "bob" (by decide)
  ⟨h.1, h.2.1 (by decide)⟩

/-- The scoring branch, expressed through the fold and the spec-side
loser list. -/
theorem scoreRound_spec (st : BotState)
    (hp : st.participants.Pairwise (fun a b => a ≠ b)) :
    scoreRound st =
      ({ st with roundComplete := true, roundScored := true,
                 contestants := scoreMap st.participants st.contestants },
       composeResults
         { st with roundComplete := true, roundScored := true,
                   contestants := scoreMap st.participants st.contestants }
         (specLoserList st)) := by
  simp only [scoreRound, applyScoresAndGetLosers, specLoserList]
  rw [applyScoresLoop_eq st.winnerThisRound st.participants st.contestants true "" hp]
  rw [losersAcc_true_eq]

/-- C3 (amended): the results announcement is exactly one of four forms
— "No winners this round.", "No winners this round, only losers
BibleThump <loserList>.", "Congratulations, <winner>! (now at N
point[s]).", "Congratulations, <winner>! (now at N point[s]) FeelsBadMan
<loserList>." — where the loser list contains every participant except
the winner, in the participants' sorted order, comma separated, each
rendered as nickname (delta -> newTotal), and N is the winner's updated
total. -/
theorem c3_results_message (st : BotState)
    (hs : st.participants.Pairwise (· < ·))
    (hw : st.winnerThisRound ≠ "" → st.winnerThisRound ∈ st.participants) :
    (st.winnerThisRound = "" ∧ specLoserList st = "" ∧
      (scoreRound st).2 = "No winners this round.") ∨
    (st.winnerThisRound = "" ∧ specLoserList st ≠ "" ∧
      (scoreRound st).2 =
        "No winners this round, only losers BibleThump " ++ specLoserList st ++ ".") ∨
    (st.winnerThisRound ≠ "" ∧ specLoserList st = "" ∧
      (scoreRound st).2 =
        "Congratulations, " ++ st.winnerThisRound ++ "! (now at " ++
          toString (pointsOf st.contestants st.winnerThisRound +
            deltaOf st.contestants st.winnerThisRound) ++ " point" ++
          (if pointsOf st.contestants st.winnerThisRound +
              deltaOf st.contestants st.winnerThisRound = 1 then "" else "s") ++ ").") ∨
    (st.winnerThisRound ≠ "" ∧ specLoserList st ≠ "" ∧
      (scoreRound st).2 =
        "Congratulations, " ++ st.winnerThisRound ++ "! (now at " ++
          toString (pointsOf st.contestants st.winnerThisRound +
            deltaOf st.contestants st.winnerThisRound) ++ " point" ++
          (if pointsOf st.contestants st.winnerThisRound +
              deltaOf st.contestants st.winnerThisRound = 1 then "" else "s") ++
          ") FeelsBadMan " ++ specLoserList st ++ ".") := by
  have hp : st.participants.Pairwise (fun a b => a ≠ b) :=
    hs.imp (fun h => ne_of_lt h)
  have hmsg : (scoreRound st).2 =
      composeResults
        { st with roundComplete := true, roundScored := true,
                  contestants := scoreMap st.participants st.contestants }
        (specLoserList st) := by
    rw [scoreRound_spec st hp]
  by_cases hw0 : st.winnerThisRound = ""
  · by_cases hL : specLoserList st = ""
    · left
      refine ⟨hw0, hL, ?_⟩
      rw [hmsg]
      simp only [composeResults]
      rw [if_pos hw0, hL]
      rw [if_neg (show ¬(("" : String) ≠ "") from fun h => h rfl)]
      rfl
    · right; left
      refine ⟨hw0, hL, ?_⟩
      rw [hmsg]
      simp only [composeResults]
      rw [if_pos hw0, if_pos hL]
      rw [← String.append_assoc "No winners this round" ", only losers BibleThump "
        (specLoserList st)]
      rfl
  · have hwm := hw hw0
    have hpts : (mapGetOrDefault (scoreMap st.participants st.contestants)
        st.winnerThisRound).points =
        pointsOf st.contestants st.winnerThisRound +
          deltaOf st.contestants st.winnerThisRound := by
      have h := (pointsOf_scoreMap st.participants st.contestants st.winnerThisRound hp).1
      rw [if_pos hwm] at h
      exact h
    by_cases hL : specLoserList st = ""
    · right; right; left
      refine ⟨hw0, hL, ?_⟩
      rw [hmsg]
      simp only [composeResults]
      rw [if_neg hw0, hpts, hL]
      rw [if_neg (show ¬(("" : String) ≠ "") from fun h => h rfl)]
      rw [String.append_empty, String.append_assoc]
      rfl
    · right; right; right
      refine ⟨hw0, hL, ?_⟩
      rw [hmsg]
      simp only [composeResults]
      rw [if_neg hw0, hpts, if_pos hL]
      simp only [String.append_assoc]
      rw [← String.append_assoc ")" " FeelsBadMan " (specLoserList st ++ ".")]
      rfl

/-- Counterexample to C3 as stated: the code inserts the emote token
"BibleThump " (and "FeelsBadMan " in the winner forms) before the loser
list, so the concrete round with lone loser bob produces a message that
matches none of the four forms claimed. -/
theorem c3_exact_forms_counterexample :
    specLoserList exScoring = "bob (-1 -> 2)" ∧
    (scoreRound exScoring).2 =
      "No winners this round, only losers BibleThump bob (-1 -> 2)." ∧
    (scoreRound exScoring).2 ≠ "No winners this round, only losers bob (-1 -> 2)." ∧
    (scoreRound exScoring).2 ≠ "No winners this round." :=
  ⟨by decide, by decide, by decide, by decide⟩

/-- A won round (winner "alice", no other participants) used by the C3
witness. -/
def exWinState : BotState :=
  { exOpen with participants := ["alice"], winnerThisRound := "alice",
                contestants := [("alice", { nickname := "alice", points := 0, pointDelta := 1 })] }

/-- Witness for the amended C3 at a concrete won round. -/
theorem c3_results_message_witness :
    (exWinState.winnerThisRound = "" ∧ specLoserList exWinState = "" ∧
      (scoreRound exWinState).2 = "No winners this round.") ∨
    (exWinState.winnerThisRound = "" ∧ specLoserList exWinState ≠ "" ∧
      (scoreRound exWinState).2 =
        "No winners this round, only losers BibleThump " ++ specLoserList exWinState ++ ".") ∨
    (exWinState.winnerThisRound ≠ "" ∧ specLoserList exWinState = "" ∧
      (scoreRound exWinState).2 =
        "Congratulations, " ++ exWinState.winnerThisRound ++ "! (now at " ++
          toString (pointsOf exWinState.contestants exWinState.winnerThisRound +
            deltaOf exWinState.contestants exWinState.winnerThisRound) ++ " point" ++
          (if pointsOf exWinState.contestants exWinState.winnerThisRound +
              deltaOf exWinState.contestants exWinState.winnerThisRound = 1
           then "" else "s") ++ ").") ∨
    (exWinState.winnerThisRound ≠ "" ∧ specLoserList exWinState ≠ "" ∧
      (scoreRound exWinState).2 =
        "Congratulations, " ++ exWinState.winnerThisRound ++ "! (now at " ++
          toString (pointsOf exWinState.contestants exWinState.winnerThisRound +
            deltaOf exWinState.contestants exWinState.winnerThisRound) ++ " point" ++
          (if pointsOf exWinState.contestants exWinState.winnerThisRound +
              deltaOf exWinState.contestants exWinState.winnerThisRound = 1
           then "" else "s") ++
          ") FeelsBadMan " ++ specLoserList exWinState ++ ".") :=
  c3_results_message exWinState (by simp [exWinState, exOpen]) (fun _ => by decide)

end MathBot2001
